import Mathlib

/-!
Verification of the core of `everscale-network` (ADNL secure channel,
RLDP query engine, DHT peer iterator) against its natural-language
specification.  The Rust sources are shallowly embedded below: byte
buffers become `List Nat` (each element a byte value), machine-integer
arithmetic is `Nat`/`Int` with an explicit `% 2 ^ 64` where the `u64`
source arithmetic can wrap, and fallible operations return explicit
result types.  External collaborators (X25519, SHA-256, AES-CTR, the
TL codec, the DHT bucket affinity) are not part of the sources under
verification; where a claim depends on one it is modelled from the
spec, each such definition carrying a doc comment starting with
"Modelled from the spec:".
-/

/-! ### Byte-sequence helpers -/

/-- Lexicographic comparison of byte sequences.  This embeds the derived
`Ord` instance of Rust's `AdnlNodeIdShort` (a newtype over `[u8; 32]`),
whose derived comparison is element-wise lexicographic. -/
def lexCompare : List Nat → List Nat → Ordering
  | [], [] => .eq
  | [], _ :: _ => .lt
  | _ :: _, [] => .gt
  | a :: as, b :: bs =>
    match compare a b with
    | .eq => lexCompare as bs
    | o => o

/-- XOR-fold of a byte sequence (used by the modelled digest below). -/
def xorFold (l : List Nat) : Nat := l.foldr (fun a acc => a ^^^ acc) 0

/-- Modelled from the spec: SHA-256 is an external crypto primitive
(`sha2::Sha256::digest`).  The model is a 32-byte digest whose first
byte is the XOR-fold of the input and whose second byte is the input
length modulo 256; this preserves the spec-relevant property that any
single-byte change of the input (and any length change) changes the
digest, while remaining executable. -/
def shaModel (l : List Nat) : List Nat :=
  xorFold l :: l.length % 256 :: List.replicate 30 0

/-- Modelled from the spec: the AES-256-CTR keystream produced by
`build_packet_cipher(secret, iv)` (external, `utils`).  Byte `i` of the
stream is a function of the 32-byte secret and the position.  The real
cipher also mixes in the checksum used as IV; the model keys the stream
by the secret only, which is what the settled claims depend on (the
stream is a fixed byte-wise pad for a fixed secret, and applying it
twice is the identity). -/
def ksByte (secret : List Nat) (i : Nat) : Nat :=
  (secret.getD (i % 32) 0) ^^^ (i % 256)

/-- Apply the keystream starting at stream position `i` to a byte list
(XOR byte-by-byte), embedding `apply_keystream` on a buffer slice. -/
def applyKeystream (secret : List Nat) : Nat → List Nat → List Nat
  | _, [] => []
  | i, b :: rest => (b ^^^ ksByte secret i) :: applyKeystream secret (i + 1) rest

/-- Embeds `process_channel_data(buffer, secret)`
(src/adnl_node/channel.rs:130-133): the packet cipher is applied in
place to bytes `[64..)` of the buffer, bytes `[0..64)` are untouched.
(The real call derives the cipher from `secret` and `buffer[32..64]`;
see `ksByte` for how the IV input is modelled.) -/
def processChannelData (secret : List Nat) (buffer : List Nat) : List Nat :=
  buffer.take 64 ++ applyKeystream secret 0 (buffer.drop 64)

/-! ### ADNL channel (src/adnl_node/channel.rs) -/

/-- Modelled from the spec: `compute_channel_id` hashes the Aes public
key schema value built from the secret (`utils::hash`, external); the
channel id is the schema-tagged 32-byte hash of the secret. -/
def computeChannelId (secret : List Nat) : List Nat :=
  shaModel secret

/-- One direction of a channel: 32-byte secret plus derived channel id
(struct `ChannelSide`, src/adnl_node/channel.rs:108-111). -/
structure ChannelSide where
  id : List Nat
  secret : List Nat
deriving DecidableEq, Repr

/-- Embeds `ChannelSide::from_secret` (src/adnl_node/channel.rs:114-119). -/
def ChannelSide.fromSecret (secret : List Nat) : ChannelSide :=
  { id := computeChannelId secret, secret := secret }

/-- The channel pair (struct `AdnlChannel`).  The `drop` deadline is the
`AtomicI32`, modelled as a plain integer for the sequential contract. -/
structure AdnlChannel where
  channelOut : ChannelSide
  channelIn : ChannelSide
  localId : List Nat
  peerId : List Nat
  drop : Int
deriving DecidableEq, Repr

/-- Embeds `AdnlChannel::new` (src/adnl_node/channel.rs:22-45).  The
X25519 `compute_shared_secret` is external, so the shared secret is an
input.  Note that the source names the match result `(in_secret,
out_secret)` and then initializes `channel_out` from `in_secret` and
`channel_in` from `out_secret`; the embedding reproduces that crossed
assignment exactly. -/
def AdnlChannel.new (localId peerId sharedSecret : List Nat) : AdnlChannel :=
  let reversedSecret := sharedSecret.reverse
  let p : List Nat × List Nat :=
    match lexCompare localId peerId with
    | .lt => (sharedSecret, reversedSecret)
    | .eq => (sharedSecret, sharedSecret)
    | .gt => (reversedSecret, sharedSecret)
  { channelOut := ChannelSide.fromSecret p.1
    channelIn := ChannelSide.fromSecret p.2
    localId := localId
    peerId := peerId
    drop := 0 }

/-- `CHANNEL_RESET_TIMEOUT` (src/adnl_node/channel.rs:11), seconds. -/
def CHANNEL_RESET_TIMEOUT : Int := 30

/-- Embeds `AdnlChannel::update_drop_timeout` (src/adnl_node/channel.rs:64-73)
in the sequential setting: the CAS `compare_exchange(0, now + 30)` either
succeeds (state was 0; `Ok` carries the previous value 0, which
`unwrap_or_else` returns) or fails (state was non-zero `was`; returns
`was`).  Result is `(new deadline state, returned value)`. -/
def updateDropTimeout (drop : Int) (now : Int) : Int × Int :=
  if drop = 0 then (now + CHANNEL_RESET_TIMEOUT, 0) else (drop, drop)

/-- Embeds `AdnlChannel::reset_drop_timeout` (src/adnl_node/channel.rs:75-77). -/
def resetDropTimeout (_drop : Int) : Int := 0

/-- Embeds `AdnlChannel::encrypt` (src/adnl_node/channel.rs:94-105):
compute the checksum of the payload, prepend the 64-byte header
(outbound channel id, then checksum), then run the packet cipher over
bytes `[64..)` with the outbound secret. -/
def AdnlChannel.encrypt (ch : AdnlChannel) (buffer : List Nat) : List Nat :=
  let checksum := shaModel buffer
  processChannelData ch.channelOut.secret (ch.channelOut.id ++ checksum ++ buffer)

/-- The mutable `PacketView`: a backing byte buffer and a logical start
offset; `remove_prefix(n)` advances the start without copying. -/
structure PacketView where
  data : List Nat
  start : Nat
deriving DecidableEq, Repr

/-- The bytes currently visible through the view. -/
def PacketView.bytes (v : PacketView) : List Nat := v.data.drop v.start

/-- The view's length (`PacketView::len`). -/
def PacketView.viewLen (v : PacketView) : Nat := v.bytes.length

/-- Result of `AdnlChannel::decrypt`, embedding `AdnlChannelError`. -/
inductive DecryptResult where
  | ok
  | messageTooShort (len : Nat)
  | invalidChecksum
deriving DecidableEq, Repr

/-- Embeds `AdnlChannel::decrypt` (src/adnl_node/channel.rs:79-92).
Requires 64 bytes; applies the packet cipher in place over the view
(bytes `[64..)` of the visible slice); compares the digest of the
decrypted tail against header bytes `[32..64)`; on success advances the
view past the 64-byte header.  The returned view is the buffer state
after the call (on the checksum failure the keystream has already been
applied in place). -/
def AdnlChannel.decrypt (ch : AdnlChannel) (v : PacketView) : DecryptResult × PacketView :=
  if v.viewLen < 64 then (.messageTooShort v.viewLen, v)
  else
    let processed := v.data.take v.start ++ processChannelData ch.channelIn.secret v.bytes
    let v' : PacketView := { data := processed, start := v.start }
    if shaModel (v'.bytes.drop 64) = (v'.bytes.take 64).drop 32 then
      (.ok, { data := processed, start := v.start + 64 })
    else
      (.invalidChecksum, v')

/-- Flip bit `bit` of byte `j` of a buffer (used to state the tamper
properties; positions past the end leave the buffer unchanged except
that `List.set` is the identity there). -/
def flipBit (l : List Nat) (j bit : Nat) : List Nat :=
  l.set j ((l.getD j 0) ^^^ (2 ^ bit))

/-! ### DHT peer iterator (src/dht/peers_iter.rs) -/

/-- Leading zero bits of a byte value (8 for 0). -/
def byteLeadingZeros (b : Nat) : Nat :=
  if 128 ≤ b then 0
  else if 64 ≤ b then 1
  else if 32 ≤ b then 2
  else if 16 ≤ b then 3
  else if 8 ≤ b then 4
  else if 4 ≤ b then 5
  else if 2 ≤ b then 6
  else if 1 ≤ b then 7
  else 8

/-- Modelled from the spec: `get_affinity(key_id, peer_id)`
(src/dht/buckets.rs, not under the verified sources) is the count of
leading matching bits of `key_id XOR peer_id`. -/
def getAffinity : List Nat → List Nat → Nat
  | [], _ => 0
  | _, [] => 0
  | a :: as, b :: bs =>
    let x := a ^^^ b
    if x = 0 then 8 + getAffinity as bs else byteLeadingZeros x

/-- The slice of the DHT node the iterator consumes
(`dht.known_peers()` and `dht.is_bad_peer`, external interface). -/
structure DhtNode where
  knownPeers : List (List Nat)
  isBadPeer : List Nat → Bool

/-- The iterator state (struct `PeersIter`, src/dht/peers_iter.rs:6-10).
`peerIds` is kept in the `Vec` order: pushes append at the end, `next`
pops the last element. -/
structure PeersIter where
  keyId : List Nat
  peerIds : List (Nat × List Nat)
  index : Nat

/-- Embeds `PeersIter::with_key_id` (src/dht/peers_iter.rs:13-19). -/
def PeersIter.withKeyId (keyId : List Nat) : PeersIter :=
  { keyId := keyId, peerIds := [], index := 0 }

/-- Embeds `PeersIter::next` (src/dht/peers_iter.rs:21-23): pop the last
(highest-affinity after a fill) element. -/
def PeersIter.nextPeer (it : PeersIter) : Option (List Nat) × PeersIter :=
  match it.peerIds.getLast? with
  | none => (none, it)
  | some (_, p) => (some p, { it with peerIds := it.peerIds.dropLast })

/-- The admission test of the scan loop (src/dht/peers_iter.rs:36-41):
admit when the list is empty or no batch size is given, otherwise when
the affinity is at least the last-pushed affinity or the list is still
shorter than the batch size. -/
def admitCondition (peerIds : List (Nat × List Nat)) (batchLen : Option Nat)
    (affinity : Nat) : Bool :=
  match peerIds.getLast?, batchLen with
  | none, _ => true
  | _, none => true
  | some (topAffinity, _), some b => topAffinity ≤ affinity || peerIds.length < b

/-- One step of the scan over the known-peers suffix: skip bad peers,
compute the affinity, push when admitted (loop body of `fill`,
src/dht/peers_iter.rs:29-47). -/
def scanStep (keyId : List Nat) (isBad : List Nat → Bool) (batchLen : Option Nat)
    (acc : List (Nat × List Nat)) (p : List Nat) : List (Nat × List Nat) :=
  if isBad p then acc
  else
    let affinity := getAffinity keyId p
    if admitCondition acc batchLen affinity then acc ++ [(affinity, p)] else acc

/-- Insertion of one entry into a list sorted by ascending affinity. -/
def insertByAffinity (x : Nat × List Nat) : List (Nat × List Nat) → List (Nat × List Nat)
  | [] => [x]
  | y :: ys => if x.1 < y.1 then x :: y :: ys else y :: insertByAffinity x ys

/-- Embeds `sort_unstable_by_key(|(affinity, _)| *affinity)`
(src/dht/peers_iter.rs:52-53) as an insertion sort: the source sort is
unstable, so the order among equal affinities is unspecified; the
claims settled here depend only on the sorted-by-affinity multiset. -/
def sortByAffinity : List (Nat × List Nat) → List (Nat × List Nat)
  | [] => []
  | x :: xs => insertByAffinity x (sortByAffinity xs)

/-- The counting loop of the batch truncation (src/dht/peers_iter.rs:62-68):
walk the remaining entries in descending order, counting while the
affinity ties the top or fewer than `batchLen` are counted, stopping at
the first entry that does neither. -/
def trimCount (topAffinity b : Nat) : Nat → List (Nat × List Nat) → Nat
  | cnt, [] => cnt
  | cnt, (affinity, _) :: rest =>
    if topAffinity ≤ affinity || cnt < b then trimCount topAffinity b (cnt + 1) rest
    else cnt

/-- The batch truncation (src/dht/peers_iter.rs:55-73): take the top
(last) entry, count over the rest in reverse, then drain the prefix so
that exactly the counted number of entries remain.  Note the count
starts at 0 after the top entry has already been consumed by
`iter.next()`. -/
def trimToBatch (b : Nat) (l : List (Nat × List Nat)) : List (Nat × List Nat) :=
  match l.reverse with
  | [] => l
  | (topAffinity, _) :: rest => l.drop (l.length - trimCount topAffinity b 0 rest)

/-- Embeds `PeersIter::fill` (src/dht/peers_iter.rs:25-76) together with
`next_known_peer` (lines 78-91).  The scan loop repeatedly takes the
entry at `index` (incrementing `index` each probe), skips entries
flagged bad, and stops at the first probe past the end; this is the
same as processing the non-bad peers of `knownPeers.drop index` in
order and leaving `index` one past the first out-of-range probe, i.e.
`max index knownPeers.length + 1`.  Then the list is sorted by
ascending affinity and, when a batch length is given, truncated. -/
def PeersIter.fill (dht : DhtNode) (batchLen : Option Nat) (it : PeersIter) : PeersIter :=
  let scanned :=
    (dht.knownPeers.drop it.index).foldl (scanStep it.keyId dht.isBadPeer batchLen) it.peerIds
  let sorted := sortByAffinity scanned
  let filtered :=
    match batchLen with
    | none => sorted
    | some b => trimToBatch b sorted
  { it with peerIds := filtered, index := max it.index dht.knownPeers.length + 1 }

/-! ### RLDP query engine (src/rldp_node/mod.rs) -/

/-- Wrap modulus of the source's `u64` arithmetic. -/
def U64MOD : Nat := 2 ^ 64

/-- `MIN_TIMEOUT` (src/rldp_node/mod.rs:329), milliseconds. -/
def MIN_TIMEOUT : Nat := 500

/-- `MAX_TIMEOUT` (src/rldp_node/mod.rs:330), milliseconds. -/
def MAX_TIMEOUT : Nat := 10000

/-- Embeds `calc_timeout` (src/rldp_node/mod.rs:321-323). -/
def calcTimeout (roundtrip : Option Nat) : Nat :=
  max (roundtrip.getD MAX_TIMEOUT) MIN_TIMEOUT

/-- Embeds `update_roundtrip` (src/rldp_node/mod.rs:312-319): `elapsed`
is the measured milliseconds (the source truncates the `u128` reading
with `as u64`, hence the modulus); a zero roundtrip is replaced by the
elapsed time, a non-zero one gets half the elapsed time added (`u64`
addition, wrapping).  Returns the new roundtrip and the new timeout. -/
def updateRoundtrip (roundtrip elapsed : Nat) : Nat × Nat :=
  let e := elapsed % U64MOD
  let r := if roundtrip = 0 then e else (roundtrip + e / 2) % U64MOD
  (r, calcTimeout (some r))

/-- Embeds `is_timed_out` (src/rldp_node/mod.rs:325-327): elapsed
milliseconds strictly exceed `timeout + timeout * updates / 100` (the
multiplication and addition are wrapping `u64` operations). -/
def isTimedOut (elapsed timeout updates : Nat) : Bool :=
  elapsed % U64MOD > (timeout + (timeout * updates) % U64MOD / 100) % U64MOD

/-- One traversal of the inner per-part loop body of `send_loop`
(src/rldp_node/mod.rs:278-305), with the externally observed quantities
as oracle inputs: whether `is_finished_or_next_part` reported true
during the wave or after the sleep, the `seqno_in` value read from the
shared state, and the milliseconds elapsed since the current `start`
instant. -/
structure SendTick where
  finishedInWave : Bool
  finishedAfterSleep : Bool
  seqnoIn : Nat
  elapsed : Nat

/-- Outcome of the inner `'part` loop of `send_loop`. -/
inductive PartOutcome where
  | partDone (roundtrip timeout : Nat)
  | stalled (ok : Bool) (roundtrip : Nat)
  | exhausted (timeout roundtrip seqno : Nat)
deriving DecidableEq, Repr

/-- Embeds the `'part` loop of `send_loop` (src/rldp_node/mod.rs:278-306)
as a sequential machine over an observation trace.  Per tick: a finish
observation exits the part (after which line 306 runs
`update_roundtrip`); otherwise a strictly larger `seqno_in` is progress
(`update_roundtrip`, reset `start`, remember the seqno); otherwise, if
`is_timed_out(start, timeout, incoming_seqno)`, the send loop returns
`(false, min(roundtrip * 2, MAX_TIMEOUT))` (line 303); otherwise loop. -/
def partLoop (timeout roundtrip seqno : Nat) : List SendTick → PartOutcome
  | [] => .exhausted timeout roundtrip seqno
  | t :: rest =>
    if t.finishedInWave || t.finishedAfterSleep then
      let p := updateRoundtrip roundtrip t.elapsed
      .partDone p.1 p.2
    else if t.seqnoIn > seqno then
      let p := updateRoundtrip roundtrip t.elapsed
      partLoop p.2 p.1 t.seqnoIn rest
    else if isTimedOut t.elapsed timeout seqno then
      .stalled false (min ((roundtrip * 2) % U64MOD) MAX_TIMEOUT)
    else
      partLoop timeout roundtrip seqno rest

/-- Embeds `RldpNodeError` (src/rldp_node/mod.rs:333-339), plus the
deserialization failure that the `?` on `deserialize` propagates. -/
inductive RldpNodeError where
  | unexpectedAnswer
  | queryIdMismatch
  | deserializeFailed
deriving DecidableEq, Repr

/-- The outcome of `deserialize(answer)?.downcast::<ton::rldp::Message>()`
on the answer bytes (the TL codec is external): an RLDP `Answer` with
its query id and data, some other RLDP message, or a value that is not
an RLDP message at all (`downcast` returns `Err`). -/
inductive DowncastResult where
  | rldpAnswer (queryId : List Nat) (answerData : List Nat)
  | rldpOther
  | notRldp
deriving DecidableEq, Repr

/-- Embeds the answer-consumption match of `RldpNode::query`
(src/rldp_node/mod.rs:122-137): on `(Some(answer), roundtrip)` the
bytes are deserialized and must be an `Answer` whose query id equals
the query's own id; otherwise the mismatch or unexpected-answer error
is returned.  `(None, roundtrip)` passes through as a non-error. -/
def processQueryResult (deser : List Nat → Option DowncastResult) (queryId : List Nat) :
    Option (List Nat) × Nat → Except RldpNodeError (Option (List Nat) × Nat)
  | (some answer, roundtrip) =>
    match deser answer with
    | some (.rldpAnswer qid d) =>
      if qid = queryId then .ok (some d, roundtrip) else .error .queryIdMismatch
    | some .rldpOther => .error .unexpectedAnswer
    | some .notRldp => .error .unexpectedAnswer
    | none => .error .deserializeFailed
  | (none, roundtrip) => .ok (none, roundtrip)

/-- Embeds the send-failure early return of `query_transfer_loop`
(src/rldp_node/mod.rs:160-168): after `send_loop` yields `(ok,
roundtrip)`, a false `ok` returns `Ok((None, roundtrip))` at once. -/
def queryTransferLoopSendFailed (ok : Bool) (roundtrip : Nat) :
    Option (Option (List Nat) × Nat) :=
  if !ok then some (none, roundtrip) else none

/-! ### Helper lemmas -/

theorem xor_left_comm (a b c : Nat) : a ^^^ (b ^^^ c) = b ^^^ (a ^^^ c) := by
  rw [← Nat.xor_assoc, Nat.xor_comm a b, Nat.xor_assoc]

theorem xor_ne_of_ne_zero {x m : Nat} (hm : m ≠ 0) : x ^^^ m ≠ x := by
  intro h
  have h2 : x ^^^ (x ^^^ m) = x ^^^ x := congrArg (x ^^^ ·) h
  rw [Nat.xor_cancel_left, Nat.xor_self] at h2
  exact hm h2

theorem two_pow_ne_zero (b : Nat) : 2 ^ b ≠ 0 :=
  Nat.pos_iff_ne_zero.mp (Nat.pos_pow_of_pos b (by omega))

theorem lexCompare_eq_iff : ∀ a b : List Nat, lexCompare a b = .eq ↔ a = b := by
  intro a
  induction a with
  | nil => intro b; cases b <;> simp [lexCompare]
  | cons x xs ih =>
    intro b
    cases b with
    | nil => simp [lexCompare]
    | cons y ys =>
      simp only [lexCompare]
      rcases h : compare x y with hc | hc | hc
      · simp only [List.cons.injEq]
        constructor
        · intro hcontra; cases hcontra
        · rintro ⟨rfl, rfl⟩
          rw [Nat.compare_eq_eq.mpr rfl] at h
          cases h
      · rw [Nat.compare_eq_eq] at h
        subst h
        simp only [List.cons.injEq, true_and]
        exact ih ys
      · simp only [List.cons.injEq]
        constructor
        · intro hcontra; cases hcontra
        · rintro ⟨rfl, rfl⟩
          rw [Nat.compare_eq_eq.mpr rfl] at h
          cases h

theorem lexCompare_swap : ∀ a b : List Nat, lexCompare b a = (lexCompare a b).swap := by
  intro a
  induction a with
  | nil => intro b; cases b <;> simp [lexCompare, Ordering.swap]
  | cons x xs ih =>
    intro b
    cases b with
    | nil => simp [lexCompare, Ordering.swap]
    | cons y ys =>
      have hswap : compare y x = (compare x y).swap := (Nat.compare_swap x y).symm
      simp only [lexCompare, hswap]
      rcases h : compare x y with hc | hc | hc
      · rfl
      · exact ih ys
      · rfl

theorem applyKeystream_length (s : List Nat) :
    ∀ (i : Nat) (l : List Nat), (applyKeystream s i l).length = l.length := by
  intro i l
  induction l generalizing i with
  | nil => rfl
  | cons b rest ih => simp [applyKeystream, ih]

theorem applyKeystream_applyKeystream (s : List Nat) :
    ∀ (i : Nat) (l : List Nat), applyKeystream s i (applyKeystream s i l) = l := by
  intro i l
  induction l generalizing i with
  | nil => rfl
  | cons b rest ih =>
    simp only [applyKeystream, List.cons.injEq]
    exact ⟨Nat.xor_cancel_right _ _, ih (i + 1)⟩

theorem applyKeystream_set (s : List Nat) :
    ∀ (i k x : Nat) (l : List Nat), k < l.length →
      applyKeystream s i (l.set k x)
        = (applyKeystream s i l).set k (x ^^^ ksByte s (i + k)) := by
  intro i k x l
  induction l generalizing i k with
  | nil => intro h; cases h
  | cons b rest ih =>
    intro hk
    cases k with
    | zero => simp [applyKeystream]
    | succ k' =>
      have hk' : k' < rest.length := by simpa using hk
      simp only [List.set_cons_succ, applyKeystream, List.cons.injEq, true_and]
      rw [ih (i + 1) k' hk']
      have : i + 1 + k' = i + (k' + 1) := by omega
      rw [this]

theorem applyKeystream_getD (s : List Nat) :
    ∀ (i k : Nat) (l : List Nat), k < l.length →
      (applyKeystream s i l).getD k 0 = (l.getD k 0) ^^^ (ksByte s (i + k)) := by
  intro i k l
  induction l generalizing i k with
  | nil => intro h; cases h
  | cons b rest ih =>
    intro hk
    cases k with
    | zero => simp [applyKeystream]
    | succ k' =>
      have hk' : k' < rest.length := by simpa using hk
      simp only [applyKeystream, List.getD_cons_succ]
      rw [ih (i + 1) k' hk']
      have : i + 1 + k' = i + (k' + 1) := by omega
      rw [this]

theorem xorFold_set :
    ∀ (l : List Nat) (j x : Nat), j < l.length →
      xorFold (l.set j x) = (xorFold l) ^^^ ((l.getD j 0) ^^^ x) := by
  intro l
  induction l with
  | nil => intro j x h; cases h
  | cons b rest ih =>
    intro j x hj
    cases j with
    | zero =>
      simp only [List.set_cons_zero, List.getD_cons_zero, xorFold, List.foldr_cons]
      simp [Nat.xor_assoc, Nat.xor_comm, xor_left_comm, Nat.xor_cancel_left]
    | succ j' =>
      have hj' : j' < rest.length := by simpa using hj
      simp only [List.set_cons_succ, List.getD_cons_succ, xorFold, List.foldr_cons]
      have ih' := ih j' x hj'
      simp only [xorFold] at ih'
      rw [ih', ← Nat.xor_assoc]

theorem shaModel_length (l : List Nat) : (shaModel l).length = 32 := by
  simp [shaModel]

theorem getD_eq_getElem_of_lt (l : List Nat) (j : Nat) (hj : j < l.length) :
    l.getD j 0 = l[j] := by
  simp [List.getD_eq_getElem?_getD, List.getElem?_eq_getElem hj]

theorem getD_set_self (l : List Nat) (j x : Nat) (hj : j < l.length) :
    (l.set j x).getD j 0 = x := by
  induction l generalizing j with
  | nil => cases hj
  | cons b rest ih =>
    cases j with
    | zero => rfl
    | succ j' => exact ih j' (by simpa using hj)

theorem set_flip_ne (l : List Nat) (j b : Nat) (hj : j < l.length) :
    l.set j ((l.getD j 0) ^^^ (2 ^ b)) ≠ l := by
  intro h
  have h2 := congrArg (fun t => t.getD j 0) h
  simp only at h2
  rw [getD_set_self l j _ hj] at h2
  exact xor_ne_of_ne_zero (two_pow_ne_zero b) h2

theorem shaModel_flip_ne (l : List Nat) (j b : Nat) (hj : j < l.length) :
    shaModel (l.set j ((l.getD j 0) ^^^ (2 ^ b))) ≠ shaModel l := by
  intro h
  simp only [shaModel, List.cons.injEq] at h
  have hhead := h.1
  rw [xorFold_set l j _ hj,
    ← Nat.xor_assoc (l.getD j 0) (l.getD j 0) (2 ^ b),
    Nat.xor_self, Nat.zero_xor] at hhead
  exact xor_ne_of_ne_zero (two_pow_ne_zero b) hhead

theorem take64_structured (id ck c : List Nat) (hid : id.length = 32) (hck : ck.length = 32) :
    (id ++ (ck ++ c)).take 64 = id ++ ck := by
  rw [show (64 : Nat) = id.length + (ck.length + 0) from by omega,
    List.take_append, List.take_append]
  simp

theorem drop64_structured (id ck c : List Nat) (hid : id.length = 32) (hck : ck.length = 32) :
    (id ++ (ck ++ c)).drop 64 = c := by
  rw [show (64 : Nat) = id.length + (ck.length + 0) from by omega,
    List.drop_append, List.drop_append]
  simp

theorem processChannelData_structured (s id ck c : List Nat)
    (hid : id.length = 32) (hck : ck.length = 32) :
    processChannelData s (id ++ (ck ++ c)) = id ++ (ck ++ applyKeystream s 0 c) := by
  unfold processChannelData
  rw [take64_structured id ck c hid hck, drop64_structured id ck c hid hck,
    List.append_assoc]

theorem decrypt_structured (ch : AdnlChannel) (id ck c : List Nat)
    (hid : id.length = 32) (hck : ck.length = 32) :
    ch.decrypt ⟨id ++ (ck ++ c), 0⟩ =
      (if shaModel (applyKeystream ch.channelIn.secret 0 c) = ck then
        (.ok, ⟨id ++ (ck ++ applyKeystream ch.channelIn.secret 0 c), 64⟩)
      else
        (.invalidChecksum, ⟨id ++ (ck ++ applyKeystream ch.channelIn.secret 0 c), 0⟩)) := by
  have hbytes : (⟨id ++ (ck ++ c), 0⟩ : PacketView).bytes = id ++ (ck ++ c) := rfl
  have hnotshort : ¬ ((⟨id ++ (ck ++ c), 0⟩ : PacketView).viewLen < 64) := by
    simp only [PacketView.viewLen, hbytes, List.length_append, hid, hck]
    omega
  unfold AdnlChannel.decrypt
  rw [if_neg hnotshort]
  simp only [hbytes, List.take_zero, List.nil_append,
    processChannelData_structured ch.channelIn.secret id ck c hid hck]
  have hb2 : (⟨id ++ (ck ++ applyKeystream ch.channelIn.secret 0 c), 0⟩ : PacketView).bytes
      = id ++ (ck ++ applyKeystream ch.channelIn.secret 0 c) := rfl
  have hdrop : (id ++ (ck ++ applyKeystream ch.channelIn.secret 0 c)).drop 64
      = applyKeystream ch.channelIn.secret 0 c :=
    drop64_structured id ck _ hid hck
  have htake : ((id ++ (ck ++ applyKeystream ch.channelIn.secret 0 c)).take 64).drop 32
      = ck := by
    rw [take64_structured id ck _ hid hck,
      show (32 : Nat) = id.length + 0 from by omega, List.drop_append]
    simp
  simp only [PacketView.bytes, List.drop_zero, hdrop, htake, Nat.zero_add]

example : lexCompare [0, 1] [0, 2] = .lt := by decide
example : lexCompare [3] [2] = .gt := by decide
example : updateDropTimeout 0 100 = (130, 0) := by decide
example : updateDropTimeout 7 100 = (7, 7) := by decide
example :
    (AdnlChannel.new [0] [1] [5, 6]).channelOut.secret = [5, 6] := by decide
example : getAffinity [0] [0] = 8 := by decide
example : getAffinity [0, 0] [0, 16] = 11 := by decide
example :
    (PeersIter.fill ⟨[[0]], fun _ => false⟩ (some 1) (PeersIter.withKeyId [0])).peerIds
      = [] := by decide
example :
    (PeersIter.fill ⟨[[128], [0]], fun _ => false⟩ (some 5) (PeersIter.withKeyId [0])).peerIds
      = [(8, [0])] := by decide

/-! ### Channel-derivation lemmas and claims C1-C3 -/

theorem adnlChannel_new_secret_out_lt (a b S : List Nat) (h : lexCompare a b = .lt) :
    (AdnlChannel.new a b S).channelOut.secret = S := by
  simp [AdnlChannel.new, ChannelSide.fromSecret, h]

theorem adnlChannel_new_secret_in_lt (a b S : List Nat) (h : lexCompare a b = .lt) :
    (AdnlChannel.new a b S).channelIn.secret = S.reverse := by
  simp [AdnlChannel.new, ChannelSide.fromSecret, h]

theorem adnlChannel_new_secret_out_gt (a b S : List Nat) (h : lexCompare a b = .gt) :
    (AdnlChannel.new a b S).channelOut.secret = S.reverse := by
  simp [AdnlChannel.new, ChannelSide.fromSecret, h]

theorem adnlChannel_new_secret_in_gt (a b S : List Nat) (h : lexCompare a b = .gt) :
    (AdnlChannel.new a b S).channelIn.secret = S := by
  simp [AdnlChannel.new, ChannelSide.fromSecret, h]

theorem adnlChannel_new_id (a b S : List Nat) :
    (AdnlChannel.new a b S).channelOut.id
        = computeChannelId (AdnlChannel.new a b S).channelOut.secret ∧
      (AdnlChannel.new a b S).channelIn.id
        = computeChannelId (AdnlChannel.new a b S).channelIn.secret := by
  rcases h : lexCompare a b <;>
    simp [AdnlChannel.new, ChannelSide.fromSecret, h]

/-- The channel built at one end mirrors the one built at the other end
with the arguments exchanged: out-secret here equals in-secret there
(used by claims C2 and C4). -/
theorem new_mirror_secrets (a b S : List Nat) (hab : a ≠ b) :
    (AdnlChannel.new b a S).channelIn.secret = (AdnlChannel.new a b S).channelOut.secret ∧
      (AdnlChannel.new b a S).channelOut.secret = (AdnlChannel.new a b S).channelIn.secret := by
  rcases h : lexCompare a b with h1 | h1 | h1
  · have hba : lexCompare b a = .gt := by rw [lexCompare_swap, h]; rfl
    rw [adnlChannel_new_secret_in_gt b a S hba, adnlChannel_new_secret_out_lt a b S h,
      adnlChannel_new_secret_out_gt b a S hba, adnlChannel_new_secret_in_lt a b S h]
    exact ⟨rfl, rfl⟩
  · exact absurd ((lexCompare_eq_iff a b).mp h) hab
  · have hba : lexCompare b a = .lt := by rw [lexCompare_swap, h]; rfl
    rw [adnlChannel_new_secret_in_lt b a S hba, adnlChannel_new_secret_out_gt a b S h,
      adnlChannel_new_secret_out_lt b a S hba, adnlChannel_new_secret_in_gt a b S h]
    exact ⟨rfl, rfl⟩

/-- C1: the claim states the spec's derivation invariant (`local < peer`
gives `S_out = S'` and `S_in = S`).  The code computes the pair named
`(in_secret, out_secret)` exactly that way but then initializes
`channel_out` from `in_secret` and `channel_in` from `out_secret`, so at
a concrete input with `local < peer` the outbound secret is `S` (not
`S'`) and the inbound secret is `S'` (not `S`).  This theorem evaluates
the embedded constructor at such an input, exhibiting the divergence. -/
theorem c1_channel_new_swapped_assignment :
    lexCompare (List.replicate 32 0) (List.replicate 31 0 ++ [1]) = .lt ∧
    (AdnlChannel.new (List.replicate 32 0) (List.replicate 31 0 ++ [1])
        (List.range 32)).channelOut.secret = List.range 32 ∧
    (AdnlChannel.new (List.replicate 32 0) (List.replicate 31 0 ++ [1])
        (List.range 32)).channelIn.secret = (List.range 32).reverse ∧
    List.range 32 ≠ (List.range 32).reverse := by decide

/-- C2: for distinct ids `a ≠ b` whose key material yields the same
X25519 shared secret `S` on both ends, the channel built at `a` (peer
`b`) and the channel built at `b` (peer `a`) mirror each other: out
secret and id at one end equal the in secret and id at the other, in
both directions. -/
theorem c2_channel_symmetry (a b S : List Nat) (hab : a ≠ b) :
    (AdnlChannel.new a b S).channelOut.secret = (AdnlChannel.new b a S).channelIn.secret ∧
    (AdnlChannel.new a b S).channelOut.id = (AdnlChannel.new b a S).channelIn.id ∧
    (AdnlChannel.new a b S).channelIn.secret = (AdnlChannel.new b a S).channelOut.secret ∧
    (AdnlChannel.new a b S).channelIn.id = (AdnlChannel.new b a S).channelOut.id := by
  obtain ⟨hin, hout⟩ := new_mirror_secrets a b S hab
  obtain ⟨hida, hida2⟩ := adnlChannel_new_id a b S
  obtain ⟨hidb, hidb2⟩ := adnlChannel_new_id b a S
  refine ⟨hin.symm, ?_, hout.symm, ?_⟩
  · rw [hida, hidb2, hin]
  · rw [hida2, hidb, hout]

/-- C2 witness: the symmetry instantiated at concrete distinct ids. -/
theorem c2_channel_symmetry_witness :
    (AdnlChannel.new [0] [1] [5, 6]).channelOut.secret
        = (AdnlChannel.new [1] [0] [5, 6]).channelIn.secret ∧
    (AdnlChannel.new [0] [1] [5, 6]).channelOut.id
        = (AdnlChannel.new [1] [0] [5, 6]).channelIn.id ∧
    (AdnlChannel.new [0] [1] [5, 6]).channelIn.secret
        = (AdnlChannel.new [1] [0] [5, 6]).channelOut.secret ∧
    (AdnlChannel.new [0] [1] [5, 6]).channelIn.id
        = (AdnlChannel.new [1] [0] [5, 6]).channelOut.id :=
  c2_channel_symmetry [0] [1] [5, 6] (by decide)

/-- C3 counterexample: with the stored deadline 0 and `now = 100`,
`update_drop_timeout` writes `130` into the deadline but returns `0`
(the previous value carried by the successful `compare_exchange`), not
the newly written `130` the claim asserts. -/
theorem c3_update_drop_timeout_counterexample :
    updateDropTimeout 0 100 = (130, 0) ∧ (0 : Int) ≠ 130 := by decide

/-- C3 amended: when the stored deadline is 0, `update_drop_timeout(t)`
writes `t + 30` and returns 0 (the previous value, signalling the CAS
won); when the stored deadline is a non-zero `d` it leaves `d` unchanged
and returns `d`; after `reset_drop_timeout` clears the deadline to 0, a
subsequent `update_drop_timeout(t)` again writes `t + 30` and returns 0. -/
theorem c3_update_drop_timeout_contract (d t : Int) (hd : d ≠ 0) :
    updateDropTimeout 0 t = (t + CHANNEL_RESET_TIMEOUT, 0) ∧
    updateDropTimeout d t = (d, d) ∧
    updateDropTimeout (resetDropTimeout d) t = (t + CHANNEL_RESET_TIMEOUT, 0) := by
  refine ⟨rfl, ?_, rfl⟩
  simp [updateDropTimeout, hd]

/-- C3 witness: the amended drop-timer contract at `d = 7`, `t = 100`. -/
theorem c3_update_drop_timeout_contract_witness :
    updateDropTimeout 0 100 = (130, 0) ∧
    updateDropTimeout 7 100 = (7, 7) ∧
    updateDropTimeout (resetDropTimeout 7) 100 = (130, 0) :=
  c3_update_drop_timeout_contract 7 100 (by decide)

/-! ### Claim C9: decrypt frame effects -/

/-- C9: `decrypt` advances the view's logical start by exactly 64 bytes
iff it returns ok; on either error (too-short buffer or checksum
mismatch) the start is unchanged; and the backing buffer is overwritten
by the keystream exactly when the length check passed — in particular
on the checksum-mismatch branch the bytes at offsets 64 and beyond have
already been rewritten in place before the error is reported, while the
too-short branch leaves the buffer untouched. -/
theorem c9_decrypt_frame_effect (ch : AdnlChannel) (v : PacketView) :
    ((ch.decrypt v).1 = .ok ↔ (ch.decrypt v).2.start = v.start + 64) ∧
    ((ch.decrypt v).1 ≠ .ok ↔ (ch.decrypt v).2.start = v.start) ∧
    ((ch.decrypt v).2.data =
      if v.viewLen < 64 then v.data
      else v.data.take v.start ++ processChannelData ch.channelIn.secret v.bytes) := by
  simp only [AdnlChannel.decrypt]
  split
  case isTrue h1 =>
    refine ⟨?_, ?_, ?_⟩
    · simp only [reduceCtorEq, false_iff]
      omega
    · simp
    · simp [h1]
  case isFalse h1 =>
    split
    case isTrue h2 =>
      refine ⟨?_, ?_, ?_⟩
      · simp
      · simp only [ne_eq, not_true_eq_false, false_iff]
        omega
      · simp [h1]
    case isFalse h2 =>
      refine ⟨?_, ?_, ?_⟩
      · simp only [reduceCtorEq, false_iff]
        omega
      · simp
      · simp [h1]

/-! ### Flip lemmas and claim C4 -/

theorem getD_append_left (l1 l2 : List Nat) (j : Nat) (h : j < l1.length) :
    (l1 ++ l2).getD j 0 = l1.getD j 0 := by
  simp [List.getD_eq_getElem?_getD, List.getElem?_append_left h]

theorem getD_append_right (l1 l2 : List Nat) (j : Nat) (h : l1.length ≤ j) :
    (l1 ++ l2).getD j 0 = l2.getD (j - l1.length) 0 := by
  simp [List.getD_eq_getElem?_getD, List.getElem?_append_right h]

theorem flipBit_append_left (l1 l2 : List Nat) (j bit : Nat) (h : j < l1.length) :
    flipBit (l1 ++ l2) j bit = flipBit l1 j bit ++ l2 := by
  unfold flipBit
  rw [List.set_append_left _ _ h, getD_append_left l1 l2 j h]

theorem flipBit_append_right (l1 l2 : List Nat) (j bit : Nat) (h : l1.length ≤ j) :
    flipBit (l1 ++ l2) j bit = l1 ++ flipBit l2 (j - l1.length) bit := by
  unfold flipBit
  rw [List.set_append_right _ _ h, getD_append_right l1 l2 j h]

theorem flipBit_length (l : List Nat) (j bit : Nat) :
    (flipBit l j bit).length = l.length := by
  simp [flipBit]

/-- Structured form of `encrypt`: header then enciphered payload. -/
theorem encrypt_structured (ch : AdnlChannel) (p : List Nat)
    (hidlen : ch.channelOut.id.length = 32) :
    ch.encrypt p
      = ch.channelOut.id ++ (shaModel p ++ applyKeystream ch.channelOut.secret 0 p) := by
  show processChannelData ch.channelOut.secret (ch.channelOut.id ++ shaModel p ++ p)
      = ch.channelOut.id ++ (shaModel p ++ applyKeystream ch.channelOut.secret 0 p)
  rw [List.append_assoc]
  exact processChannelData_structured ch.channelOut.secret ch.channelOut.id (shaModel p) p
    hidlen (shaModel_length p)

/-- C4 counterexample: the claim asserts that a single-bit mutation
anywhere in the 64-byte header fails with `InvalidChecksum`, but
`decrypt` never inspects the channel-id bytes `[0..32)`: at a concrete
channel pair and payload, flipping bit 0 of byte 0 of the encrypted
buffer still decrypts successfully and recovers the payload. -/
theorem c4_header_flip_counterexample :
    ((AdnlChannel.new [1] [0] [2, 3]).decrypt
        ⟨flipBit ((AdnlChannel.new [0] [1] [2, 3]).encrypt [9]) 0 0, 0⟩).1
      = DecryptResult.ok ∧
    DecryptResult.ok ≠ DecryptResult.invalidChecksum := by decide

/-- C4 amended: with the mirrored channel side (the decryptor's inbound
secret equals the encryptor's outbound secret), `decrypt (encrypt p)`
succeeds and recovers `p`; a single-bit mutation of any ciphertext byte
(offsets 64 and beyond) or of any checksum byte (offsets `[32..64)`)
fails with `InvalidChecksum`; but a mutation of the channel-id bytes
(offsets `[0..32)`) is not detected: `decrypt` still succeeds and
recovers `p`. -/
theorem c4_encrypt_decrypt_tamper (ch ch' : AdnlChannel) (p : List Nat)
    (hsec : ch'.channelIn.secret = ch.channelOut.secret)
    (hidlen : ch.channelOut.id.length = 32) :
    ((ch'.decrypt ⟨ch.encrypt p, 0⟩).1 = .ok ∧
      (ch'.decrypt ⟨ch.encrypt p, 0⟩).2.bytes = p) ∧
    (∀ j bit, 64 ≤ j → j < 64 + p.length →
      (ch'.decrypt ⟨flipBit (ch.encrypt p) j bit, 0⟩).1 = .invalidChecksum) ∧
    (∀ j bit, 32 ≤ j → j < 64 →
      (ch'.decrypt ⟨flipBit (ch.encrypt p) j bit, 0⟩).1 = .invalidChecksum) ∧
    (∀ j bit, j < 32 →
      (ch'.decrypt ⟨flipBit (ch.encrypt p) j bit, 0⟩).1 = .ok ∧
      (ch'.decrypt ⟨flipBit (ch.encrypt p) j bit, 0⟩).2.bytes = p) := by
  have hckl : (shaModel p).length = 32 := shaModel_length p
  have henc := encrypt_structured ch p hidlen
  have hcl : (applyKeystream ch.channelOut.secret 0 p).length = p.length :=
    applyKeystream_length ch.channelOut.secret 0 p
  have hinv : applyKeystream ch'.channelIn.secret 0
      (applyKeystream ch.channelOut.secret 0 p) = p := by
    rw [hsec]
    exact applyKeystream_applyKeystream ch.channelOut.secret 0 p
  refine ⟨?_, ?_, ?_, ?_⟩
  · rw [henc, decrypt_structured ch' _ _ _ hidlen hckl, hinv, if_pos rfl]
    refine ⟨rfl, ?_⟩
    exact drop64_structured _ _ _ hidlen hckl
  · intro j bit h64 hlt
    rw [henc, flipBit_append_right _ _ j bit (by omega),
      flipBit_append_right _ _ _ bit (by simp [hckl]; omega)]
    have hk : j - ch.channelOut.id.length - (shaModel p).length = j - 64 := by
      rw [hidlen, hckl]; omega
    rw [hk]
    set c := applyKeystream ch.channelOut.secret 0 p with hc
    have hkc : j - 64 < c.length := by rw [hcl]; omega
    have hflip : flipBit c (j - 64) bit = c.set (j - 64) ((c.getD (j - 64) 0) ^^^ 2 ^ bit) :=
      rfl
    rw [hflip, decrypt_structured ch' _ _ _ hidlen hckl]
    rw [applyKeystream_set ch'.channelIn.secret 0 (j - 64) _ c hkc]
    rw [hinv]
    have hgd : c.getD (j - 64) 0
        = (p.getD (j - 64) 0) ^^^ (ksByte ch.channelOut.secret (0 + (j - 64))) := by
      rw [hc]
      exact applyKeystream_getD ch.channelOut.secret 0 (j - 64) p (by omega)
    rw [hgd, hsec]
    have hval : ((p.getD (j - 64) 0) ^^^ (ksByte ch.channelOut.secret (0 + (j - 64))) ^^^ 2 ^ bit)
        ^^^ (ksByte ch.channelOut.secret (0 + (j - 64)))
        = (p.getD (j - 64) 0) ^^^ 2 ^ bit := by
      rw [Nat.xor_assoc (p.getD (j - 64) 0), Nat.xor_assoc (p.getD (j - 64) 0)]
      rw [Nat.xor_comm (ksByte ch.channelOut.secret (0 + (j - 64))) (2 ^ bit), Nat.xor_assoc,
        Nat.xor_self, Nat.xor_zero]
    rw [hval, if_neg (shaModel_flip_ne p (j - 64) bit (by omega))]
  · intro j bit h32 hlt
    rw [henc, flipBit_append_right _ _ j bit (by omega),
      flipBit_append_left _ _ _ bit (by rw [hckl, hidlen]; omega)]
    set ck' := flipBit (shaModel p) (j - ch.channelOut.id.length) bit with hck'
    have hck'l : ck'.length = 32 := by rw [hck', flipBit_length, hckl]
    rw [decrypt_structured ch' _ _ _ hidlen hck'l, hinv]
    have hne : shaModel p ≠ ck' := by
      intro h
      exact set_flip_ne (shaModel p) (j - ch.channelOut.id.length) bit
        (by rw [hckl, hidlen]; omega) h.symm
    rw [if_neg hne]
  · intro j bit hlt
    rw [henc, flipBit_append_left _ _ j bit (by omega)]
    have hid'l : (flipBit ch.channelOut.id j bit).length = 32 := by
      rw [flipBit_length, hidlen]
    rw [decrypt_structured ch' _ _ _ hid'l hckl, hinv, if_pos rfl]
    exact ⟨rfl, drop64_structured _ _ _ hid'l hckl⟩

/-- C4 witness: the amended tamper contract evaluated at a concrete
channel pair built by `AdnlChannel.new` and payload `[7, 8, 9]`:
round-trip succeeds, a ciphertext flip (byte 66) and a checksum flip
(byte 40) are rejected with `InvalidChecksum`, and a channel-id flip
(byte 5) goes undetected. -/
theorem c4_encrypt_decrypt_tamper_witness :
    ((AdnlChannel.new [1] [0] [2, 3]).decrypt
        ⟨(AdnlChannel.new [0] [1] [2, 3]).encrypt [7, 8, 9], 0⟩).1 = .ok ∧
    ((AdnlChannel.new [1] [0] [2, 3]).decrypt
        ⟨(AdnlChannel.new [0] [1] [2, 3]).encrypt [7, 8, 9], 0⟩).2.bytes = [7, 8, 9] ∧
    ((AdnlChannel.new [1] [0] [2, 3]).decrypt
        ⟨flipBit ((AdnlChannel.new [0] [1] [2, 3]).encrypt [7, 8, 9]) 66 3, 0⟩).1
      = .invalidChecksum ∧
    ((AdnlChannel.new [1] [0] [2, 3]).decrypt
        ⟨flipBit ((AdnlChannel.new [0] [1] [2, 3]).encrypt [7, 8, 9]) 40 3, 0⟩).1
      = .invalidChecksum ∧
    ((AdnlChannel.new [1] [0] [2, 3]).decrypt
        ⟨flipBit ((AdnlChannel.new [0] [1] [2, 3]).encrypt [7, 8, 9]) 5 3, 0⟩).1 = .ok := by
  have h := c4_encrypt_decrypt_tamper (AdnlChannel.new [0] [1] [2, 3])
    (AdnlChannel.new [1] [0] [2, 3]) [7, 8, 9] (by decide) (by decide)
  exact ⟨h.1.1, h.1.2, h.2.1 66 3 (by decide) (by decide),
    h.2.2.1 40 3 (by decide) (by decide), (h.2.2.2 5 3 (by decide)).1⟩

/-! ### Peer iterator lemmas and claims C5, C10 -/

theorem mem_insertByAffinity_of_mem (x y : Nat × List Nat) :
    ∀ l : List (Nat × List Nat), x ∈ l → x ∈ insertByAffinity y l := by
  intro l
  induction l with
  | nil => intro h; cases h
  | cons z zs ih =>
    intro hx
    simp only [insertByAffinity]
    split
    · exact List.mem_cons_of_mem y hx
    · rcases List.mem_cons.mp hx with h | h
      · exact List.mem_cons.mpr (Or.inl h)
      · exact List.mem_cons.mpr (Or.inr (ih h))

theorem mem_sortByAffinity_of_mem (x : Nat × List Nat) :
    ∀ l : List (Nat × List Nat), x ∈ l → x ∈ sortByAffinity l := by
  intro l
  induction l with
  | nil => intro h; cases h
  | cons z zs ih =>
    intro hx
    simp only [sortByAffinity]
    rcases List.mem_cons.mp hx with h | h
    · subst h
      clear ih
      induction sortByAffinity zs with
      | nil => simp [insertByAffinity]
      | cons w ws ih2 =>
        simp only [insertByAffinity]
        split
        · exact List.mem_cons_self x _
        · exact List.mem_cons_of_mem w ih2
    · exact mem_insertByAffinity_of_mem x z _ (ih h)

theorem subset_scanStep (keyId : List Nat) (isBad : List Nat → Bool) (batchLen : Option Nat)
    (acc : List (Nat × List Nat)) (p : List Nat) :
    acc ⊆ scanStep keyId isBad batchLen acc p := by
  unfold scanStep
  by_cases hbad : isBad p = true
  · rw [if_pos hbad]
    exact List.Subset.refl acc
  · rw [if_neg hbad]
    show acc ⊆ if admitCondition acc batchLen (getAffinity keyId p) = true
        then acc ++ [(getAffinity keyId p, p)] else acc
    by_cases hadm : admitCondition acc batchLen (getAffinity keyId p) = true
    · rw [if_pos hadm]
      exact List.subset_append_left acc _
    · rw [if_neg hadm]
      exact List.Subset.refl acc

theorem mem_foldl_scanStep_of_mem (keyId : List Nat) (isBad : List Nat → Bool)
    (batchLen : Option Nat) (x : Nat × List Nat) :
    ∀ (l : List (List Nat)) (acc : List (Nat × List Nat)), x ∈ acc →
      x ∈ l.foldl (scanStep keyId isBad batchLen) acc := by
  intro l
  induction l with
  | nil => intro acc h; exact h
  | cons p ps ih =>
    intro acc hx
    simp only [List.foldl_cons]
    exact ih _ (subset_scanStep keyId isBad batchLen acc p hx)

/-- C5: the claim states that with `batch_len = Some(B)` the retained
list keeps at least `B` admissible scanned peers and every peer tied
with the maximum affinity.  The truncation loop consumes the top entry
before `remaining_count` starts at 0 and never counts it, so `fill`
retains one entry fewer than intended: with a single good peer and
`B = 1` the list comes back empty, and with three peers tied at the
maximum affinity and `B = 2` one tied peer is dropped.  This theorem
evaluates the embedded `fill` at both failing inputs. -/
theorem c5_fill_truncation_bug :
    (PeersIter.fill ⟨[[0]], fun _ => false⟩ (some 1) (PeersIter.withKeyId [0])).peerIds
      = [] ∧
    (PeersIter.fill ⟨[[0], [0], [0]], fun _ => false⟩ (some 2)
        (PeersIter.withKeyId [0])).peerIds.length = 2 := by decide

/-- C10 counterexample: a peer retained by an earlier `fill` need not
remain in the list: the first `fill` (no batch limit) retains the
affinity-0 peer `[128]`, and a second `fill` with `batch_len = Some(1)`
scans nothing new yet drops it in the truncation phase. -/
theorem c10_fill_counterexample :
    (0, [128]) ∈ (PeersIter.fill ⟨[[128], [0]], fun _ => false⟩ none
        (PeersIter.withKeyId [0])).peerIds ∧
    (0, [128]) ∉ (PeersIter.fill ⟨[[128], [0]], fun _ => false⟩ (some 1)
        (PeersIter.fill ⟨[[128], [0]], fun _ => false⟩ none
          (PeersIter.withKeyId [0]))).peerIds := by decide

/-- C10 amended: `fill` never clears the accumulated state — the scan
appends newly admitted peers to the existing list and re-sorts them
together, so with `batch_len = None` every previously retained peer is
still in the list (with `Some(B)` the truncation phase may drop
previously retained low-affinity peers, as the counterexample shows);
and the scan cursor only increases: after `fill` it equals
`max index (len known_peers) + 1`, strictly above both the previous
cursor and every index of `known_peers`, so a subsequent `fill` on the
same DHT scans an empty suffix and no index is examined twice. -/
theorem c10_fill_accumulates (dht : DhtNode) (bl : Option Nat) (it : PeersIter) :
    it.peerIds ⊆ (PeersIter.fill dht none it).peerIds ∧
    (PeersIter.fill dht bl it).index = max it.index dht.knownPeers.length + 1 ∧
    it.index < (PeersIter.fill dht bl it).index ∧
    dht.knownPeers.drop (PeersIter.fill dht bl it).index = [] := by
  refine ⟨?_, rfl, ?_, ?_⟩
  · intro x hx
    exact mem_sortByAffinity_of_mem x _
      (mem_foldl_scanStep_of_mem it.keyId dht.isBadPeer none x _ it.peerIds hx)
  · simp only [PeersIter.fill]
    omega
  · apply List.drop_eq_nil_of_le
    simp only [PeersIter.fill]
    omega

/-! ### RLDP claims C6, C7, C8 -/

/-- C6: when the send loop stalls — no finish observation, no new
`seqno_in` progress, and the adaptive timeout has elapsed per
`is_timed_out` — the loop returns `(false, min(roundtrip * 2,
MAX_TIMEOUT))`, the transfer loop turns that into the non-error
`(None, roundtrip)` early return, and the query's final match passes
`(None, r)` through as `Ok((None, r))`: the query does not return an
error (the hypothesis `roundtrip * 2 < 2 ^ 64` rules out `u64` wrap of
the doubling). -/
theorem c6_send_stall_not_error (timeout roundtrip seqno : Nat) (t : SendTick)
    (rest : List SendTick) (deser : List Nat → Option DowncastResult) (queryId : List Nat)
    (hf1 : t.finishedInWave = false) (hf2 : t.finishedAfterSleep = false)
    (hseq : t.seqnoIn ≤ seqno)
    (hto : isTimedOut t.elapsed timeout seqno = true)
    (hr : roundtrip * 2 < U64MOD) :
    partLoop timeout roundtrip seqno (t :: rest)
      = .stalled false (min (roundtrip * 2) MAX_TIMEOUT) ∧
    queryTransferLoopSendFailed false (min (roundtrip * 2) MAX_TIMEOUT)
      = some (none, min (roundtrip * 2) MAX_TIMEOUT) ∧
    processQueryResult deser queryId (none, min (roundtrip * 2) MAX_TIMEOUT)
      = .ok (none, min (roundtrip * 2) MAX_TIMEOUT) := by
  refine ⟨?_, rfl, rfl⟩
  simp only [partLoop, hf1, hf2, Bool.or_self, Bool.false_eq_true, if_false]
  rw [if_neg (by omega : ¬ t.seqnoIn > seqno), if_pos hto, Nat.mod_eq_of_lt hr]

/-- C6 witness: a one-tick stall with `timeout = 500`, `roundtrip =
600`, no progress and 501 ms elapsed yields the stalled result `(false,
min(1200, MAX_TIMEOUT))` and a non-error query outcome. -/
theorem c6_send_stall_not_error_witness :
    partLoop 500 600 0 [⟨false, false, 0, 501⟩]
      = .stalled false (min (600 * 2) MAX_TIMEOUT) ∧
    queryTransferLoopSendFailed false (min (600 * 2) MAX_TIMEOUT)
      = some (none, min (600 * 2) MAX_TIMEOUT) ∧
    processQueryResult (fun _ => none) [] (none, min (600 * 2) MAX_TIMEOUT)
      = .ok (none, min (600 * 2) MAX_TIMEOUT) :=
  c6_send_stall_not_error 500 600 0 ⟨false, false, 0, 501⟩ [] (fun _ => none) []
    rfl rfl (by decide) (by decide) (by decide)

/-- C7 counterexample: starting from roundtrip 0 with a first elapsed
measurement of 0 ms, the roundtrip stays 0, so a second call with
elapsed 2 ms takes the zero branch again and sets the roundtrip to 2 —
not to `0 + 2 / 2 = 1` as the claim's second-application formula
predicts. -/
theorem c7_update_roundtrip_counterexample :
    (updateRoundtrip (updateRoundtrip 0 0).1 2).1 = 2 ∧ (2 : Nat) ≠ 0 + 2 / 2 := by decide

/-- C7 amended: `calc_timeout(Some r) = max(r, MIN_TIMEOUT)` and is at
least `MIN_TIMEOUT`; `calc_timeout(None) = MAX_TIMEOUT`; from roundtrip
0, `update_roundtrip` with elapsed `e` sets the roundtrip to `e` and
returns `calc_timeout` of it, and — provided the first elapsed `e` was
non-zero (otherwise the roundtrip is still 0 and the second call again
takes the zero branch) and no `u64` wrap occurs — a second application
with elapsed `e2` sets it to `e + e2 / 2` and returns `calc_timeout` of
the new value. -/
theorem c7_adaptive_rtt (r e e2 : Nat) (he : 0 < e) (he64 : e < U64MOD)
    (he2 : e2 < U64MOD) (hsum : e + e2 / 2 < U64MOD) :
    calcTimeout (some r) = max r MIN_TIMEOUT ∧
    MIN_TIMEOUT ≤ calcTimeout (some r) ∧
    calcTimeout none = MAX_TIMEOUT ∧
    (updateRoundtrip 0 e).1 = e ∧
    (updateRoundtrip 0 e).2 = calcTimeout (some e) ∧
    (updateRoundtrip (updateRoundtrip 0 e).1 e2).1 = e + e2 / 2 ∧
    (updateRoundtrip (updateRoundtrip 0 e).1 e2).2 = calcTimeout (some (e + e2 / 2)) := by
  have h1 : (updateRoundtrip 0 e).1 = e := by
    simp [updateRoundtrip, Nat.mod_eq_of_lt he64]
  have h2 : (updateRoundtrip e e2).1 = e + e2 / 2 := by
    simp [updateRoundtrip, he.ne', Nat.mod_eq_of_lt he2, Nat.mod_eq_of_lt hsum]
  refine ⟨rfl, le_max_right _ _, by decide, h1, ?_, ?_, ?_⟩
  · rw [show (updateRoundtrip 0 e).2 = calcTimeout (some (updateRoundtrip 0 e).1) from rfl, h1]
  · rw [h1, h2]
  · rw [h1,
      show (updateRoundtrip e e2).2 = calcTimeout (some (updateRoundtrip e e2).1) from rfl, h2]

/-- C7 witness: the amended adaptive-RTT contract at `r = 7`, `e = 200`,
`e2 = 2000` (the spec's own S4 numbers: 200 then 200 + 1000 = 1200). -/
theorem c7_adaptive_rtt_witness :
    calcTimeout (some 7) = max 7 MIN_TIMEOUT ∧
    MIN_TIMEOUT ≤ calcTimeout (some 7) ∧
    calcTimeout none = MAX_TIMEOUT ∧
    (updateRoundtrip 0 200).1 = 200 ∧
    (updateRoundtrip 0 200).2 = calcTimeout (some 200) ∧
    (updateRoundtrip (updateRoundtrip 0 200).1 2000).1 = 200 + 2000 / 2 ∧
    (updateRoundtrip (updateRoundtrip 0 200).1 2000).2
      = calcTimeout (some (200 + 2000 / 2)) :=
  c7_adaptive_rtt 7 200 2000 (by decide) (by decide) (by decide) (by decide)

/-- C8: once the transfer loop yields answer bytes, the query's final
match deserializes them and correlates by query id: an `Answer`
carrying the query's own id returns `Ok((Some(data), roundtrip))`, an
`Answer` with a different id fails with `QueryIdMismatch`, and any
non-`Answer` deserialization (another RLDP message, or a value that is
not an RLDP message) fails with `UnexpectedAnswer`. -/
theorem c8_query_answer_correlation (deser : List Nat → Option DowncastResult)
    (queryId qid d answer : List Nat) (roundtrip : Nat) :
    (deser answer = some (.rldpAnswer queryId d) →
      processQueryResult deser queryId (some answer, roundtrip) = .ok (some d, roundtrip)) ∧
    (deser answer = some (.rldpAnswer qid d) → qid ≠ queryId →
      processQueryResult deser queryId (some answer, roundtrip)
        = .error .queryIdMismatch) ∧
    (deser answer = some .rldpOther →
      processQueryResult deser queryId (some answer, roundtrip)
        = .error .unexpectedAnswer) ∧
    (deser answer = some .notRldp →
      processQueryResult deser queryId (some answer, roundtrip)
        = .error .unexpectedAnswer) := by
  refine ⟨?_, ?_, ?_, ?_⟩
  · intro h
    simp [processQueryResult, h]
  · intro h hne
    simp [processQueryResult, h, hne]
  · intro h
    simp [processQueryResult, h]
  · intro h
    simp [processQueryResult, h]

/-- C8 witness: the correlation contract applied at concrete
deserialization outcomes — matching id, mismatched id, another RLDP
message, and a non-RLDP value. -/
theorem c8_query_answer_correlation_witness :
    processQueryResult (fun _ => some (.rldpAnswer [1] [9])) [1] (some [0], 5)
      = .ok (some [9], 5) ∧
    processQueryResult (fun _ => some (.rldpAnswer [2] [9])) [1] (some [0], 5)
      = .error .queryIdMismatch ∧
    processQueryResult (fun _ => some .rldpOther) [1] (some [0], 5)
      = .error .unexpectedAnswer ∧
    processQueryResult (fun _ => some .notRldp) [1] (some [0], 5)
      = .error .unexpectedAnswer :=
  ⟨(c8_query_answer_correlation (fun _ => some (.rldpAnswer [1] [9])) [1] [2] [9] [0] 5).1
      rfl,
    (c8_query_answer_correlation (fun _ => some (.rldpAnswer [2] [9])) [1] [2] [9] [0] 5).2.1
      rfl (by decide),
    (c8_query_answer_correlation (fun _ => some .rldpOther) [1] [2] [9] [0] 5).2.2.1 rfl,
    (c8_query_answer_correlation (fun _ => some .notRldp) [1] [2] [9] [0] 5).2.2.2 rfl⟩
